import Mathlib

/-!
# Terminal-multiplexer auto-away detection (`src/term_mplex.c`)

A shallow embedding of `term_mplex.c`.

Conventions of the embedding
* A C string is the `List Char` of its bytes before the terminating NUL.
* A `char *` into a string is an offset (`Nat`) from the start of the string, or the
  suffix of the list that starts there; `NULL` is `none`.
* The file-scope statics `buffer`, `mplex`, `prev_status`, `prev_note` are the fields of
  `Globals`, threaded explicitly through every function that touches them.
* A write past the end of the fixed-size array `buffer`, or an `int` length that leaves
  the range of `int`, has no defined result: the function returns `none`.
* What the operating system and the libraries answer (`getenv`, `popen`, `fgets`, `stat`,
  the Tox instance, `user_settings`) is an explicit argument.
-/

namespace TermMplex

/-! ## Constants and types -/

/-- The double quote character, written by line 261 (`argv[2][0] = '\"'`). -/
def DQUOTE : Char := Char.ofNat 34

/-- The line feed character searched for by line 97. -/
def NEWLINE : Char := Char.ofNat 10

/-- The macro `PATH_SEP_C` (line 54). -/
def PATH_SEP_C : Char := '/'

/-- The macro `PATH_SEP_S` (line 53). -/
def PATH_SEP_S : List Char := ['/']

/-- Constants that come from headers outside `term_mplex.c`:
`PATH_MAX` from `<limits.h>` (`none` when the platform does not define it) and
`TOX_MAX_STATUSMESSAGE_LENGTH` from `<tox/tox.h>`. -/
structure Limits where
  PATH_MAX : Option Nat
  TOX_MAX_STATUSMESSAGE_LENGTH : Nat
deriving Repr

/-- The macro `BUFFER_SIZE` (lines 47-51): `PATH_MAX` when it is defined and larger than 512,
otherwise 512. -/
def BUFFER_SIZE (L : Limits) : Nat :=
  match L.PATH_MAX with
  | some p => if p > 512 then p else 512
  | none => 512

/-- The value `INT_MAX` of the 32-bit `int` that `dyn_buffer_size` and `length` are declared
with (lines 66 and 70). -/
def INT_MAX : Nat := 2 ^ 31 - 1

/-- The constant `S_IXUSR` of `<sys/stat.h>`: the owner-execute permission bit, octal 0100. -/
def S_IXUSR : Nat := 0o100

/-- Modelled from the spec: the enumeration `TOX_USERSTATUS` is declared in `<tox/tox.h>`,
which is not part of the sources; the spec's data model gives the presence status as
`enum{Online, Away, Busy}` and the code names the three values `TOX_USERSTATUS_NONE`
(shown as "online"), `TOX_USERSTATUS_AWAY` and `TOX_USERSTATUS_BUSY`. -/
inductive TOX_USERSTATUS where
  | NONE
  | AWAY
  | BUSY
deriving DecidableEq, Repr

/-- Modelled from the spec: the Tox instance as far as `term_mplex.c` reads it, through the
presence API `get_current_status() -> enum` and `get_current_note() -> string`
(`tox_get_self_user_status` and `tox_get_self_status_message` of `<tox/tox.h>`). -/
structure Tox where
  status : TOX_USERSTATUS
  statusmessage : List Char
deriving DecidableEq, Repr

/-- The fields of `struct user_settings` (`settings.h`) that `term_mplex.c` reads. -/
structure UserSettings where
  mplex_away : Bool
  mplex_away_note : List Char
deriving DecidableEq, Repr

/-- The file-scope statics of lines 56-59. `buffer` holds the C string stored in the array
`buffer [BUFFER_SIZE]`. -/
structure Globals where
  buffer : List Char
  mplex : Int
  prev_status : TOX_USERSTATUS
  prev_note : List Char
deriving DecidableEq, Repr

/-- The statics as initialised at program start (lines 56-59): a zeroed `buffer`,
`mplex = 0`, `prev_status = TOX_USERSTATUS_NONE`, `prev_note = ""`. -/
def Globals.initial : Globals :=
  { buffer := [], mplex := 0, prev_status := TOX_USERSTATUS.NONE, prev_note := [] }

/-- What the process environment, the subprocess and the file system answer.
* `STY`, `TMUX`: `getenv` of the two session variables (`none` is `NULL`).
* `screen_ls`: `popen ("env LC_ALL=C screen -ls", "r")`; `none` when the launch fails,
  otherwise the strings that the successive `fgets` calls on the stream return, in order,
  before `fgets` returns `NULL`.
* `stat`: `stat (path, &sb)`; `none` when it fails, otherwise `sb.st_mode`. -/
structure World where
  STY : Option (List Char)
  TMUX : Option (List Char)
  screen_ls : Option (List (List Char))
  stat : List Char → Option Nat

/-! ## C string functions -/

/-- The libc call `strchr (s, c)` for a character `c` other than NUL: the offset of the first `c` in
`s`, `none` for `NULL`. -/
def strchr : List Char → Char → Option Nat
  | [], _ => none
  | x :: xs, c => if x = c then some 0 else (strchr xs c).map (· + 1)

/-- The libc call `strrchr (s, c)` for a character `c` other than NUL: the offset of the last `c` in
`s`, `none` for `NULL`. -/
def strrchr : List Char → Char → Option Nat
  | [], _ => none
  | x :: xs, c =>
    match strrchr xs c with
    | some i => some (i + 1)
    | none => if x = c then some 0 else none

/-- Whether the C string `s` starts with the C string `needle`. -/
def startsWith : List Char → List Char → Bool
  | _, [] => true
  | [], _ :: _ => false
  | x :: xs, y :: ys => x == y && startsWith xs ys

/-- The libc call `strstr (haystack, needle)`: the offset of the first occurrence of `needle` in
`haystack`, `none` for `NULL`. -/
def strstr : List Char → List Char → Option Nat
  | [], needle => if startsWith [] needle then some 0 else none
  | x :: xs, needle =>
    if startsWith (x :: xs) needle then some 0 else (strstr xs needle).map (· + 1)

/-- The libc call `strcpy (buffer, src)` into the static array `buffer [BUFFER_SIZE]`:
defined when `src` and its terminating NUL fit. -/
def strcpy_buffer (L : Limits) (src : List Char) : Option (List Char) :=
  if src.length + 1 ≤ BUFFER_SIZE L then some src else none

/-- The libc call `strcat (buffer, src)` onto the string held by the static array `buffer`:
defined when the result and its terminating NUL fit. -/
def strcat_buffer (L : Limits) (buf src : List Char) : Option (List Char) :=
  if buf.length + src.length + 1 ≤ BUFFER_SIZE L then some (buf ++ src) else none

/-! ## Presence API of the application -/

/-- The call `tox_get_self_user_status (tox)` of line 237. -/
def tox_get_self_user_status (tox : Tox) : TOX_USERSTATUS := tox.status

/-- Modelled from the spec: `tox_get_self_status_message (tox, buf, maxlen)` of `<tox/tox.h>`
copies the live note into a buffer of `maxlen` bytes (the spec's `saved_note: string
(bounded length)`); the result is the string then held by `buf`, which is the whole note
when the note and its terminating NUL fit. -/
def tox_get_self_status_message (tox : Tox) (maxlen : Nat) : List Char :=
  tox.statusmessage.take maxlen

/-! ## The attachment sampler -/

/-- The function `mplex_is_detached` (lines 215-225): 1 when detached, 0 otherwise. -/
def mplex_is_detached (g : Globals) (stat : List Char → Option Nat) : Int :=
  if g.mplex = 0 then 0
  else
    match stat g.buffer with
    | none => 0
    | some st_mode => if st_mode &&& S_IXUSR = 0 then 1 else 0

/-! ## The timer callback -/

/-- The status word of line 259-260. -/
def status_word (new_status : TOX_USERSTATUS) : List Char :=
  if new_status = TOX_USERSTATUS.AWAY then "away".toList
  else if new_status = TOX_USERSTATUS.BUSY then "busy".toList
  else "online".toList

/-- The array `argv` built by lines 257-263 from `new_status` and `new_note`. -/
def status_argv (new_status : TOX_USERSTATUS) (new_note : List Char) : List (List Char) :=
  [ "/status".toList, status_word new_status, (DQUOTE :: new_note) ++ [DQUOTE] ]

/-- The function `mplex_timer_handler` (lines 227-267). The result is the statics after the tick and
the `argv` handed to `cmd_status` (with `argc = 2`), or `none` when the tick returns
without calling `cmd_status`. -/
def mplex_timer_handler (L : Limits) (g : Globals) (tox : Tox)
    (stat : List Char → Option Nat) (user_settings : UserSettings) :
    Globals × Option (List (List Char)) :=
  if g.mplex = 0 then (g, none)
  else
    let detached := mplex_is_detached g stat
    let current_status := tox_get_self_user_status tox
    if current_status = TOX_USERSTATUS.AWAY ∧ detached = 0 then
      (g, some (status_argv g.prev_status g.prev_note))
    else if current_status ≠ TOX_USERSTATUS.AWAY ∧ detached ≠ 0 then
      ({ g with
          prev_status := current_status
          prev_note := tox_get_self_status_message tox L.TOX_MAX_STATUSMESSAGE_LENGTH },
        some (status_argv TOX_USERSTATUS.AWAY user_settings.mplex_away_note))
    else (g, none)

/-- Modelled from the spec: `cmd_status` of `global_commands.c` (not part of the sources),
the "status-change command invoked with `(status, note)`" of the presence API, called with
`argc = 2`: `argv[1]` is the status word and `argv[2]` the note between two double quotes.
An unknown status word changes nothing; a note that does not open with a double quote
leaves the note as it was. -/
def cmd_status (tox : Tox) (argv : List (List Char)) : Tox :=
  match argv with
  | [_, word, note] =>
    let status_kind : Option TOX_USERSTATUS :=
      if word = "online".toList then some TOX_USERSTATUS.NONE
      else if word = "away".toList then some TOX_USERSTATUS.AWAY
      else if word = "busy".toList then some TOX_USERSTATUS.BUSY
      else none
    match status_kind with
    | none => tox
    | some k =>
      match note with
      | q :: msg =>
        if q = DQUOTE then { status := k, statusmessage := msg.take (msg.length - 1) }
        else { tox with status := k }
      | [] => { tox with status := k }
  | _ => tox

/-- One tick of the timer as the application sees it: `mplex_timer_handler` runs and the
command it dispatches, if any, is executed by `cmd` on the Tox instance (lines 264-266
call `cmd_status` under `Winthread.lock`). The result also reports the dispatched
`argv`. -/
def tick (cmd : Tox → List (List Char) → Tox) (L : Limits) (user_settings : UserSettings)
    (s : Globals × Tox) (stat : List Char → Option Nat) :
    (Globals × Tox) × Option (List (List Char)) :=
  let r := mplex_timer_handler L s.1 s.2 stat user_settings
  match r.2 with
  | none => ((r.1, s.2), none)
  | some argv => ((r.1, cmd s.2 argv), some argv)

/-- The dispatched status command takes effect: executing the `argv` that lines 257-263
build for a status and a note makes them the live status and the live note. -/
def TakesEffect (cmd : Tox → List (List Char) → Tox) : Prop :=
  ∀ (tox : Tox) (st : TOX_USERSTATUS) (note : List Char),
    cmd tox (status_argv st note) = { status := st, statusmessage := note }

/-- The states of the presence state machine that ticks can reach from program start:
the statics start as initialised by lines 58-59 (whatever detection stored in `buffer`
and `mplex`), the live status and note are whatever the user has set, and every tick
runs `mplex_timer_handler` with the dispatched command taking effect; between two ticks
the user may set any other status and note (`user`). -/
inductive Reachable (cmd : Tox → List (List Char) → Tox) (L : Limits)
    (user_settings : UserSettings) : Globals × Tox → Prop where
  | start (buffer : List Char) (mplex : Int) (tox : Tox) :
      Reachable cmd L user_settings
        ({ Globals.initial with buffer := buffer, mplex := mplex }, tox)
  | step (s : Globals × Tox) (stat : List Char → Option Nat) :
      Reachable cmd L user_settings s →
      Reachable cmd L user_settings (tick cmd L user_settings s stat).1
  | user (g : Globals) (tox tox1 : Tox) :
      Reachable cmd L user_settings (g, tox) →
      Reachable cmd L user_settings (g, tox1)

/-! ## The session-info parser -/

/-- The marker `search_str` of line 84. -/
def search_str : List Char := " Socket".toList

/-- The function `extract_socket_path` (lines 82-109). `none` is `NULL`; otherwise the string copied
into the freshly allocated `path`. -/
def extract_socket_path (info : List Char) : Option (List Char) :=
  match strstr info search_str with
  | none => none
  | some i =>
    let pos := info.drop (i + search_str.length)
    match strchr pos PATH_SEP_C with
    | none => none
    | some j =>
      let pos := pos.drop j
      match strchr pos NEWLINE with
      | none => none
      | some e =>
        -- `*end = '\0'`: the string at `pos` now stops at the newline
        let pos := pos.take e
        match strrchr pos '.' with
        | none => none
        | some d =>
          -- `*end = '\0'; strcpy (path, pos)`
          some (pos.take d)

/-! ## The multiplexer locator -/

/-- The loop of `read_into_dyn_buffer` (lines 68-77) over the strings the remaining `fgets`
calls return. `buffer` is the static array `fgets` reads into, `dyn_buffer` the heap block
(`none` is `NULL`) and `dyn_buffer_size` its size. The result is the final `buffer` and
`dyn_buffer`; there is none when `length` leaves the range of `int`: the sum of line 70 is
then converted to a negative `int`, which `realloc` receives as a size it cannot serve, and
line 75 copies through the pointer that comes back. Allocations of sizes in range are
taken to succeed. -/
def read_loop : List (List Char) → List Char → Option (List Char) → Nat →
    Option (List Char × Option (List Char))
  | [], buffer, dyn_buffer, _ => some (buffer, dyn_buffer)
  | input :: rest, _, dyn_buffer, dyn_buffer_size =>
    let length := dyn_buffer_size + input.length
    if length > INT_MAX then none
    else
      -- `realloc` keeps the old content, `malloc` returns a fresh block
      let block := match dyn_buffer with
        | some d => d
        | none => []
      -- `strcpy (dyn_buffer + dyn_buffer_size - 1, input_ptr)`
      read_loop rest input (some (block.take (dyn_buffer_size - 1) ++ input)) length

/-- The function `read_into_dyn_buffer` (lines 62-80), on the strings that the successive
`fgets` calls return. -/
def read_into_dyn_buffer (stream : List (List Char)) (buffer : List Char) :
    Option (List Char × Option (List Char)) :=
  read_loop stream buffer none 1

/-- The function `detect_gnu_screen` (lines 111-153): the return value and the statics
afterwards. -/
def detect_gnu_screen (L : Limits) (g : Globals) (w : World) : Option (Int × Globals) :=
  match w.STY with
  | none => some (0, g)
  | some socket_name =>
    match w.screen_ls with
    | none => some (0, g)
    | some session_info_stream =>
      match read_into_dyn_buffer session_info_stream g.buffer with
      | none => none
      | some (buffer, none) => some (0, { g with buffer := buffer })
      | some (buffer, some dyn_buffer) =>
        match extract_socket_path dyn_buffer with
        | none => some (0, { g with buffer := buffer })
        | some socket_path =>
          (strcpy_buffer L socket_path).bind fun b1 =>
          (strcat_buffer L b1 PATH_SEP_S).bind fun b2 =>
          (strcat_buffer L b2 socket_name).map fun b3 =>
            (1, { g with buffer := b3, mplex := 1 })

/-- The function `detect_tmux` (lines 155-189): the return value and the statics
afterwards. The copy of the environment value is assumed to be allocated (line 162
succeeds). When `TMUX` is unset, line 186 tests `socket_path` before anything was assigned
to it; the embedding takes that path to free nothing and return 0. -/
def detect_tmux (L : Limits) (g : Globals) (w : World) : Option (Int × Globals) :=
  match w.TMUX with
  | none => some (0, g)
  | some tmux_env =>
    let socket_path := tmux_env
    match strrchr socket_path ',' with
    | none => some (0, g)
    | some pos =>
      let socket_path := socket_path.take pos
      match strrchr socket_path ',' with
      | none => some (0, g)
      | some pos =>
        let socket_path := socket_path.take pos
        (strcpy_buffer L socket_path).map fun b => (1, { g with buffer := b, mplex := 1 })

/-- The occurrence of the marker `search_str` that follows the prefix `pre` of `text` is the
first one: no occurrence of the marker in `text` starts before it. -/
def FirstMarkerAt (text pre : List Char) : Prop :=
  ∀ a b : List Char, text = a ++ search_str ++ b → pre.length ≤ a.length

/-! ## Sample values -/

/-- Limits of a Linux build: `PATH_MAX = 4096`, `TOX_MAX_STATUSMESSAGE_LENGTH = 1007`. -/
def sampleLimits : Limits := { PATH_MAX := some 4096, TOX_MAX_STATUSMESSAGE_LENGTH := 1007 }

/-- Settings with the feature enabled and a short away note. -/
def sampleSettings : UserSettings := { mplex_away := true, mplex_away_note := "Detached".toList }

/-- Statics after a successful tmux detection. -/
def sampleGlobals : Globals :=
  { Globals.initial with buffer := "/tmp/tmux-1000/default".toList, mplex := 1 }

/-- A file system in which every `stat` succeeds with mode `0600` (socket of a detached
session: owner-execute bit clear). -/
def statDetached : List Char → Option Nat := fun _ => some 0o600

/-- A file system in which every `stat` succeeds with mode `0700` (socket of an attached
session: owner-execute bit set). -/
def statAttached : List Char → Option Nat := fun _ => some 0o700

/-- A process started inside both a GNU screen session and a tmux session: `STY` and `TMUX`
are set and `screen -ls` prints its three lines. -/
def sampleWorld : World :=
  { STY := some "1234.pts-0.host".toList
    TMUX := some "/tmp/tmux-1000/default,1234,0".toList
    screen_ls := some
      [ "There is a screen on:".toList ++ [NEWLINE],
        "  1234.pts-0.host (Attached)".toList ++ [NEWLINE],
        "1 Socket in /var/run/screen/S-user.".toList ++ [NEWLINE] ]
    stat := statAttached }

/-- A process started outside any multiplexer: neither `STY` nor `TMUX` is set. -/
def plainWorld : World :=
  { STY := none, TMUX := none, screen_ls := none, stat := fun _ => none }

/-- A listing of 524417 chunks of 4095 characters each, 2147487615 characters in all, one
more chunk than an `int` can count. -/
def hugeStream : List (List Char) := List.replicate 524417 (List.replicate 4095 'a')

/-! ## Lemmas on the timer callback -/

theorem status_word_ne_online_away : "away".toList ≠ "online".toList := by decide

theorem status_word_ne_online_busy : "busy".toList ≠ "online".toList := by decide

theorem status_word_ne_away_busy : "busy".toList ≠ "away".toList := by decide

/-- The modelled `cmd_status` executes the `argv` of lines 257-263 as intended. -/
theorem cmd_status_takesEffect : TakesEffect cmd_status := by
  intro tox st note
  cases st <;>
    simp [cmd_status, status_argv, status_word, status_word_ne_online_away,
      status_word_ne_online_busy, status_word_ne_away_busy]

/-- A tick never touches `buffer` or `mplex`. -/
theorem mplex_timer_handler_buffer_mplex (L : Limits) (g : Globals) (tox : Tox)
    (stat : List Char → Option Nat) (us : UserSettings) :
    (mplex_timer_handler L g tox stat us).1.buffer = g.buffer ∧
      (mplex_timer_handler L g tox stat us).1.mplex = g.mplex := by
  simp only [mplex_timer_handler]
  split_ifs <;> simp

/-- The sampler reads only `buffer` and `mplex` of the statics. -/
theorem mplex_is_detached_congr (g g1 : Globals) (stat : List Char → Option Nat)
    (hb : g1.buffer = g.buffer) (hm : g1.mplex = g.mplex) :
    mplex_is_detached g1 stat = mplex_is_detached g stat := by
  simp [mplex_is_detached, hb, hm]

/-- Without a located multiplexer the tick returns at line 234. -/
theorem handler_no_mplex (L : Limits) (g : Globals) (tox : Tox)
    (stat : List Char → Option Nat) (us : UserSettings) (hm : g.mplex = 0) :
    mplex_timer_handler L g tox stat us = (g, none) := by
  simp only [mplex_timer_handler, if_pos hm]

/-- The branch of lines 239-243. -/
theorem handler_restore (L : Limits) (g : Globals) (tox : Tox)
    (stat : List Char → Option Nat) (us : UserSettings) (hm : g.mplex ≠ 0)
    (h : tox.status = TOX_USERSTATUS.AWAY ∧ mplex_is_detached g stat = 0) :
    mplex_timer_handler L g tox stat us =
      (g, some (status_argv g.prev_status g.prev_note)) := by
  simp only [mplex_timer_handler, tox_get_self_user_status, if_neg hm, if_pos h]

/-- The branch of lines 245-253. -/
theorem handler_snapshot (L : Limits) (g : Globals) (tox : Tox)
    (stat : List Char → Option Nat) (us : UserSettings) (hm : g.mplex ≠ 0)
    (h : tox.status ≠ TOX_USERSTATUS.AWAY ∧ mplex_is_detached g stat ≠ 0) :
    mplex_timer_handler L g tox stat us =
      ({ g with
          prev_status := tox.status
          prev_note := tox_get_self_status_message tox L.TOX_MAX_STATUSMESSAGE_LENGTH },
        some (status_argv TOX_USERSTATUS.AWAY us.mplex_away_note)) := by
  have h1 : ¬ (tox.status = TOX_USERSTATUS.AWAY ∧ mplex_is_detached g stat = 0) :=
    fun c => h.1 c.1
  simp only [mplex_timer_handler, tox_get_self_user_status, if_neg hm, if_neg h1, if_pos h]

/-- The branch of lines 254-255. -/
theorem handler_idle (L : Limits) (g : Globals) (tox : Tox)
    (stat : List Char → Option Nat) (us : UserSettings)
    (h1 : ¬ (tox.status = TOX_USERSTATUS.AWAY ∧ mplex_is_detached g stat = 0))
    (h2 : ¬ (tox.status ≠ TOX_USERSTATUS.AWAY ∧ mplex_is_detached g stat ≠ 0)) :
    mplex_timer_handler L g tox stat us = (g, none) := by
  by_cases hm : g.mplex = 0
  · exact handler_no_mplex L g tox stat us hm
  · simp only [mplex_timer_handler, tox_get_self_user_status, if_neg hm, if_neg h1, if_neg h2]

/-- A sampler that reports detached has a located multiplexer. -/
theorem mplex_of_detached (g : Globals) (stat : List Char → Option Nat)
    (hD : mplex_is_detached g stat ≠ 0) : g.mplex ≠ 0 := by
  intro h0
  exact hD (by simp [mplex_is_detached, h0])

/-- A note that fits `prev_note` is copied whole. -/
theorem tox_get_self_status_message_fit (tox : Tox) (maxlen : Nat)
    (h : tox.statusmessage.length < maxlen) :
    tox_get_self_status_message tox maxlen = tox.statusmessage :=
  List.take_of_length_le (Nat.le_of_lt h)

/-- The saved status is never Away in a reachable state: line 247 runs only under the
guard `current_status != TOX_USERSTATUS_AWAY` of line 245. -/
theorem reachable_prev_status (cmd : Tox → List (List Char) → Tox) (L : Limits)
    (us : UserSettings) (s : Globals × Tox) (hr : Reachable cmd L us s) :
    s.1.prev_status ≠ TOX_USERSTATUS.AWAY := by
  induction hr with
  | start buffer mplex tox => simp [Globals.initial]
  | step s stat _ ih =>
    obtain ⟨g, tox⟩ := s
    have hfst : (tick cmd L us (g, tox) stat).1.1 = (mplex_timer_handler L g tox stat us).1 := by
      simp only [tick]
      split <;> rfl
    rw [hfst]
    by_cases hm : g.mplex = 0
    · rw [handler_no_mplex L g tox stat us hm]; exact ih
    · by_cases h1 : tox.status = TOX_USERSTATUS.AWAY ∧ mplex_is_detached g stat = 0
      · rw [handler_restore L g tox stat us hm h1]; exact ih
      · by_cases h2 : tox.status ≠ TOX_USERSTATUS.AWAY ∧ mplex_is_detached g stat ≠ 0
        · rw [handler_snapshot L g tox stat us hm h2]; exact h2.1
        · rw [handler_idle L g tox stat us h1 h2]; exact ih
  | user g tox tox1 _ ih => exact ih

/-! ## The presence state machine -/

/-- C1: for every tick of `mplex_timer_handler` with a located multiplexer (`mplex` set):
if the live status is Away and the sampler reports attached, the tick dispatches the status
command built from the saved status and the saved note and leaves the statics unchanged;
else if the live status is not Away and the sampler reports detached, it stores the live
status and the live note (as `tox_get_self_status_message` copies it into `prev_note`,
which is the whole note when it fits) into the snapshot and dispatches the status command
Away with the configured away note; in every other case it dispatches nothing and leaves
the statics unchanged. -/
theorem mplex_timer_handler_transitions (L : Limits) (g : Globals) (tox : Tox)
    (stat : List Char → Option Nat) (us : UserSettings) (hm : g.mplex ≠ 0) :
    (tox.status = TOX_USERSTATUS.AWAY ∧ mplex_is_detached g stat = 0 →
      mplex_timer_handler L g tox stat us =
        (g, some (status_argv g.prev_status g.prev_note))) ∧
    (tox.status ≠ TOX_USERSTATUS.AWAY ∧ mplex_is_detached g stat ≠ 0 →
      mplex_timer_handler L g tox stat us =
        ({ g with
            prev_status := tox.status
            prev_note := tox_get_self_status_message tox L.TOX_MAX_STATUSMESSAGE_LENGTH },
          some (status_argv TOX_USERSTATUS.AWAY us.mplex_away_note)) ∧
      (tox.statusmessage.length < L.TOX_MAX_STATUSMESSAGE_LENGTH →
        (mplex_timer_handler L g tox stat us).1.prev_note = tox.statusmessage)) ∧
    (¬ (tox.status = TOX_USERSTATUS.AWAY ∧ mplex_is_detached g stat = 0) →
      ¬ (tox.status ≠ TOX_USERSTATUS.AWAY ∧ mplex_is_detached g stat ≠ 0) →
      mplex_timer_handler L g tox stat us = (g, none)) := by
  refine ⟨handler_restore L g tox stat us hm, fun h => ⟨handler_snapshot L g tox stat us hm h,
    fun hfit => ?_⟩, handler_idle L g tox stat us⟩
  rw [handler_snapshot L g tox stat us hm h]
  exact tox_get_self_status_message_fit tox _ hfit

/-- Instance of C1: the statics after a tmux detection, live status Busy with note "N", the
socket without its owner-execute bit: the tick snapshots Busy and "N" and dispatches
`/status away "Detached"`. -/
theorem mplex_timer_handler_transitions_witness :
    sampleGlobals.mplex ≠ 0 ∧
    mplex_timer_handler sampleLimits sampleGlobals
        { status := TOX_USERSTATUS.BUSY, statusmessage := ['N'] } statDetached sampleSettings =
      ({ sampleGlobals with prev_status := TOX_USERSTATUS.BUSY, prev_note := ['N'] },
        some ["/status".toList, "away".toList, (DQUOTE :: "Detached".toList) ++ [DQUOTE]]) :=
  ⟨by decide,
    ((mplex_timer_handler_transitions sampleLimits sampleGlobals
        { status := TOX_USERSTATUS.BUSY, statusmessage := ['N'] } statDetached sampleSettings
        (by decide)).2.1 ⟨by decide, by decide⟩).1⟩

/-- C2: round trip. With a located multiplexer, for every starting live status other than
Away (in particular Busy) and every note `N` that fits the note buffer `prev_note`, a tick
with the sampler reporting detached followed immediately by a tick with the sampler
reporting attached, each dispatched status command taking effect, ends with the live
status equal to the starting status and the live note exactly `N`. -/
theorem detach_attach_round_trip (cmd : Tox → List (List Char) → Tox) (hcmd : TakesEffect cmd)
    (L : Limits) (us : UserSettings) (g : Globals) (st : TOX_USERSTATUS) (N : List Char)
    (statD statA : List Char → Option Nat)
    (hst : st ≠ TOX_USERSTATUS.AWAY)
    (hN : N.length < L.TOX_MAX_STATUSMESSAGE_LENGTH)
    (hD : mplex_is_detached g statD ≠ 0)
    (hA : mplex_is_detached g statA = 0) :
    (tick cmd L us (tick cmd L us (g, { status := st, statusmessage := N }) statD).1 statA).1.2 =
      { status := st, statusmessage := N } := by
  have hm : g.mplex ≠ 0 := mplex_of_detached g statD hD
  have h1 := handler_snapshot L g { status := st, statusmessage := N } statD us hm ⟨hst, hD⟩
  rw [tox_get_self_status_message_fit _ _ hN] at h1
  have ht1 : (tick cmd L us (g, { status := st, statusmessage := N }) statD).1 =
      ({ g with prev_status := st, prev_note := N },
        { status := TOX_USERSTATUS.AWAY, statusmessage := us.mplex_away_note }) := by
    simp only [tick, h1, hcmd _ _ _]
  rw [ht1]
  have hA1 : mplex_is_detached { g with prev_status := st, prev_note := N } statA = 0 :=
    (mplex_is_detached_congr g _ statA rfl rfl).trans hA
  have h2 := handler_restore L { g with prev_status := st, prev_note := N }
    { status := TOX_USERSTATUS.AWAY, statusmessage := us.mplex_away_note } statA us hm
    ⟨rfl, hA1⟩
  simp only [tick, h2, hcmd _ _ _]

/-- Instance of C2: Busy with note "N", one detached tick, one attached tick, commands
executed by the modelled `cmd_status`. -/
theorem detach_attach_round_trip_witness :
    TakesEffect cmd_status ∧ TOX_USERSTATUS.BUSY ≠ TOX_USERSTATUS.AWAY ∧
    ['N'].length < sampleLimits.TOX_MAX_STATUSMESSAGE_LENGTH ∧
    mplex_is_detached sampleGlobals statDetached ≠ 0 ∧
    mplex_is_detached sampleGlobals statAttached = 0 ∧
    (tick cmd_status sampleLimits sampleSettings
      (tick cmd_status sampleLimits sampleSettings
        (sampleGlobals, { status := TOX_USERSTATUS.BUSY, statusmessage := ['N'] })
        statDetached).1 statAttached).1.2 =
      { status := TOX_USERSTATUS.BUSY, statusmessage := ['N'] } :=
  ⟨cmd_status_takesEffect, by decide, by decide, by decide, by decide,
    detach_attach_round_trip cmd_status cmd_status_takesEffect sampleLimits sampleSettings
      sampleGlobals TOX_USERSTATUS.BUSY ['N'] statDetached statAttached
      (by decide) (by decide) (by decide) (by decide)⟩

/-- C3, refuted as stated: with a located multiplexer, live status Busy with note "N" and
the sampler reporting detached, the tick does dispatch a command, the live status does not
stay Busy once the command has taken effect, and the snapshot is changed. -/
theorem busy_detached_is_managed :
    sampleGlobals.mplex ≠ 0 ∧
    mplex_is_detached sampleGlobals statDetached ≠ 0 ∧
    (mplex_timer_handler sampleLimits sampleGlobals
      { status := TOX_USERSTATUS.BUSY, statusmessage := ['N'] } statDetached
      sampleSettings).2 ≠ none ∧
    (tick cmd_status sampleLimits sampleSettings
      (sampleGlobals, { status := TOX_USERSTATUS.BUSY, statusmessage := ['N'] })
      statDetached).1.2.status ≠ TOX_USERSTATUS.BUSY ∧
    (mplex_timer_handler sampleLimits sampleGlobals
      { status := TOX_USERSTATUS.BUSY, statusmessage := ['N'] } statDetached
      sampleSettings).1 ≠ sampleGlobals := by
  decide

/-- C3 as amended: when the live status is Busy and the sampler reports detached, a tick of
`mplex_timer_handler` makes the away transition: it stores Busy and the live note in the
snapshot and dispatches the status command Away with the configured away note, so that the
live status is Away once the command has taken effect. Busy is left unmanaged (no command,
live status still Busy, statics unchanged) when the sampler reports attached. -/
theorem busy_detached_goes_away (cmd : Tox → List (List Char) → Tox) (hcmd : TakesEffect cmd)
    (L : Limits) (us : UserSettings) (g : Globals) (note : List Char)
    (stat : List Char → Option Nat) :
    (mplex_is_detached g stat ≠ 0 →
      mplex_timer_handler L g { status := TOX_USERSTATUS.BUSY, statusmessage := note } stat us =
        ({ g with
            prev_status := TOX_USERSTATUS.BUSY
            prev_note := tox_get_self_status_message
              { status := TOX_USERSTATUS.BUSY, statusmessage := note }
              L.TOX_MAX_STATUSMESSAGE_LENGTH },
          some (status_argv TOX_USERSTATUS.AWAY us.mplex_away_note)) ∧
      (tick cmd L us (g, { status := TOX_USERSTATUS.BUSY, statusmessage := note }) stat).1.2 =
        { status := TOX_USERSTATUS.AWAY, statusmessage := us.mplex_away_note }) ∧
    (mplex_is_detached g stat = 0 →
      tick cmd L us (g, { status := TOX_USERSTATUS.BUSY, statusmessage := note }) stat =
        ((g, { status := TOX_USERSTATUS.BUSY, statusmessage := note }), none)) := by
  constructor
  · intro hD
    have hm : g.mplex ≠ 0 := mplex_of_detached g stat hD
    have h := handler_snapshot L g { status := TOX_USERSTATUS.BUSY, statusmessage := note }
      stat us hm ⟨fun c => TOX_USERSTATUS.noConfusion c, hD⟩
    refine ⟨h, ?_⟩
    simp only [tick, h, hcmd _ _ _]
  · intro hA
    have h := handler_idle L g { status := TOX_USERSTATUS.BUSY, statusmessage := note } stat us
      (fun c => by simp at c) (fun c => c.2 hA)
    simp only [tick, h]

/-- Instance of the amended C3 with the modelled `cmd_status`: Busy with note "N" and a
detached socket end in Away with the note "Detached". -/
theorem busy_detached_goes_away_witness :
    TakesEffect cmd_status ∧ mplex_is_detached sampleGlobals statDetached ≠ 0 ∧
    (tick cmd_status sampleLimits sampleSettings
      (sampleGlobals, { status := TOX_USERSTATUS.BUSY, statusmessage := ['N'] })
      statDetached).1.2 =
      { status := TOX_USERSTATUS.AWAY, statusmessage := "Detached".toList } :=
  ⟨cmd_status_takesEffect, by decide,
    ((busy_detached_goes_away cmd_status cmd_status_takesEffect sampleLimits sampleSettings
      sampleGlobals ['N'] statDetached).1 (by decide)).2⟩

/-- C4: idempotence of the state machine. In every state reachable from program start by
ticks whose dispatched commands take effect, after a tick with a sampler reading a further
tick with the same sampler reading dispatches no command and changes neither the live
status and note nor the statics. In particular a tick in Armed-Attached (live status not
Away) with the sampler reporting attached, and a tick in Armed-Away (live status Away) with
the sampler reporting detached, are no-ops. -/
theorem tick_idempotent (cmd : Tox → List (List Char) → Tox) (hcmd : TakesEffect cmd)
    (L : Limits) (us : UserSettings) (s : Globals × Tox) (hr : Reachable cmd L us s)
    (stat stat1 : List Char → Option Nat)
    (hsame : mplex_is_detached s.1 stat1 = mplex_is_detached s.1 stat) :
    tick cmd L us (tick cmd L us s stat).1 stat1 = ((tick cmd L us s stat).1, none) ∧
    (s.2.status ≠ TOX_USERSTATUS.AWAY → mplex_is_detached s.1 stat = 0 →
      tick cmd L us s stat = (s, none)) ∧
    (s.2.status = TOX_USERSTATUS.AWAY → mplex_is_detached s.1 stat ≠ 0 →
      tick cmd L us s stat = (s, none)) := by
  have hinv := reachable_prev_status cmd L us s hr
  obtain ⟨g, tox⟩ := s
  simp only at hsame hinv
  have hA : tox.status ≠ TOX_USERSTATUS.AWAY → mplex_is_detached g stat = 0 →
      tick cmd L us (g, tox) stat = ((g, tox), none) := by
    intro h1 h2
    simp only [tick, handler_idle L g tox stat us (fun c => h1 c.1) (fun c => c.2 h2)]
  have hB : tox.status = TOX_USERSTATUS.AWAY → mplex_is_detached g stat ≠ 0 →
      tick cmd L us (g, tox) stat = ((g, tox), none) := by
    intro h1 h2
    simp only [tick, handler_idle L g tox stat us (fun c => h2 c.2) (fun c => c.1 h1)]
  refine ⟨?_, hA, hB⟩
  by_cases hm : g.mplex = 0
  · have h0 : ∀ st, tick cmd L us (g, tox) st = ((g, tox), none) := fun st => by
      simp only [tick, handler_no_mplex L g tox st us hm]
    rw [h0 stat, h0 stat1]
  · by_cases h1 : tox.status = TOX_USERSTATUS.AWAY ∧ mplex_is_detached g stat = 0
    · -- restore: the live status becomes the saved one, which is not Away
      have ht : (tick cmd L us (g, tox) stat).1 =
          (g, { status := g.prev_status, statusmessage := g.prev_note }) := by
        simp only [tick, handler_restore L g tox stat us hm h1, hcmd _ _ _]
      rw [ht]
      simp only [tick, handler_idle L g { status := g.prev_status, statusmessage := g.prev_note }
        stat1 us (fun c => hinv c.1) (fun c => c.2 (hsame.trans h1.2))]
    · by_cases h2 : tox.status ≠ TOX_USERSTATUS.AWAY ∧ mplex_is_detached g stat ≠ 0
      · -- snapshot: the live status becomes Away while the sampler still reports detached
        have ht : (tick cmd L us (g, tox) stat).1 =
            ({ g with
                prev_status := tox.status
                prev_note := tox_get_self_status_message tox L.TOX_MAX_STATUSMESSAGE_LENGTH },
              { status := TOX_USERSTATUS.AWAY, statusmessage := us.mplex_away_note }) := by
          simp only [tick, handler_snapshot L g tox stat us hm h2, hcmd _ _ _]
        rw [ht]
        have hd : mplex_is_detached
            { g with
              prev_status := tox.status
              prev_note := tox_get_self_status_message tox L.TOX_MAX_STATUSMESSAGE_LENGTH }
            stat1 ≠ 0 := by
          intro c
          exact h2.2 (((mplex_is_detached_congr g _ stat1 rfl rfl).symm.trans c) ▸ hsame.symm)
        simp only [tick, handler_idle L _
          { status := TOX_USERSTATUS.AWAY, statusmessage := us.mplex_away_note }
          stat1 us (fun c => hd c.2) (fun c => c.1 rfl)]
      · have ht : tick cmd L us (g, tox) stat = ((g, tox), none) := by
          simp only [tick, handler_idle L g tox stat us h1 h2]
        rw [ht]
        have h1b : ¬ (tox.status = TOX_USERSTATUS.AWAY ∧ mplex_is_detached g stat1 = 0) := by
          rw [hsame]; exact h1
        have h2b : ¬ (tox.status ≠ TOX_USERSTATUS.AWAY ∧ mplex_is_detached g stat1 ≠ 0) := by
          rw [hsame]; exact h2
        simp only [tick, handler_idle L g tox stat1 us h1b h2b]

/-- Instance of C4: from program start with a located tmux socket and live status Busy, a
detached tick followed by a second detached tick: the second one dispatches nothing. -/
theorem tick_idempotent_witness :
    TakesEffect cmd_status ∧
    Reachable cmd_status sampleLimits sampleSettings
      (sampleGlobals, { status := TOX_USERSTATUS.BUSY, statusmessage := ['N'] }) ∧
    tick cmd_status sampleLimits sampleSettings
      (tick cmd_status sampleLimits sampleSettings
        (sampleGlobals, { status := TOX_USERSTATUS.BUSY, statusmessage := ['N'] })
        statDetached).1 statDetached =
      ((tick cmd_status sampleLimits sampleSettings
        (sampleGlobals, { status := TOX_USERSTATUS.BUSY, statusmessage := ['N'] })
        statDetached).1, none) :=
  ⟨cmd_status_takesEffect, Reachable.start _ _ _,
    (tick_idempotent cmd_status cmd_status_takesEffect sampleLimits sampleSettings
      (sampleGlobals, { status := TOX_USERSTATUS.BUSY, statusmessage := ['N'] })
      (Reachable.start _ _ _) statDetached statDetached rfl).1⟩

/-! ## Lemmas on the C string functions -/

theorem strchr_of_not_mem (c : Char) : ∀ s : List Char, c ∉ s → strchr s c = none
  | [], _ => rfl
  | x :: xs, h => by
    have hx : x ≠ c := fun e => h (e ▸ List.mem_cons_self _ _)
    have hxs : c ∉ xs := fun m => h (List.mem_cons_of_mem _ m)
    simp [strchr, hx, strchr_of_not_mem c xs hxs]

theorem strchr_append_cons (c : Char) (b : List Char) :
    ∀ a : List Char, c ∉ a → strchr (a ++ c :: b) c = some a.length
  | [], _ => by simp [strchr]
  | x :: xs, h => by
    have hx : x ≠ c := fun e => h (e ▸ List.mem_cons_self _ _)
    have hxs : c ∉ xs := fun m => h (List.mem_cons_of_mem _ m)
    simp [strchr, hx, strchr_append_cons c b xs hxs]

theorem strchr_some (c : Char) : ∀ (s : List Char) (j : Nat), strchr s c = some j →
    ∃ a b, s = a ++ c :: b ∧ a.length = j ∧ c ∉ a
  | [], _, h => by simp [strchr] at h
  | x :: xs, j, h => by
    by_cases hx : x = c
    · simp [strchr, hx] at h
      exact ⟨[], xs, by simp [hx], by simp [h], by simp⟩
    · simp only [strchr, if_neg hx, Option.map_eq_some'] at h
      obtain ⟨i, hi, hj⟩ := h
      obtain ⟨a, b, hs, hl, hn⟩ := strchr_some c xs i hi
      refine ⟨x :: a, b, by simp [hs], by simp [hl, hj], ?_⟩
      intro m
      rcases List.mem_cons.1 m with e | m
      · exact hx e.symm
      · exact hn m

theorem strrchr_of_not_mem (c : Char) : ∀ s : List Char, c ∉ s → strrchr s c = none
  | [], _ => rfl
  | x :: xs, h => by
    have hx : x ≠ c := fun e => h (e ▸ List.mem_cons_self _ _)
    have hxs : c ∉ xs := fun m => h (List.mem_cons_of_mem _ m)
    simp [strrchr, hx, strrchr_of_not_mem c xs hxs]

theorem strrchr_append_cons (c : Char) (b : List Char) (hb : c ∉ b) :
    ∀ a : List Char, strrchr (a ++ c :: b) c = some a.length
  | [] => by simp [strrchr, strrchr_of_not_mem c b hb]
  | x :: xs => by simp [strrchr, strrchr_append_cons c b hb xs]

theorem not_mem_of_strrchr_none (c : Char) : ∀ s : List Char, strrchr s c = none → c ∉ s
  | [], _ => by simp
  | x :: xs, h => by
    cases hr : strrchr xs c with
    | some i => simp [strrchr, hr] at h
    | none =>
      simp only [strrchr, hr] at h
      by_cases hx : x = c
      · simp [hx] at h
      · intro m
        rcases List.mem_cons.1 m with e | m
        · exact hx e.symm
        · exact not_mem_of_strrchr_none c xs hr m

theorem strrchr_some (c : Char) : ∀ (s : List Char) (j : Nat), strrchr s c = some j →
    ∃ a b, s = a ++ c :: b ∧ a.length = j ∧ c ∉ b
  | [], _, h => by simp [strrchr] at h
  | x :: xs, j, h => by
    cases hr : strrchr xs c with
    | some i =>
      simp only [strrchr, hr, Option.some.injEq] at h
      obtain ⟨a, b, hs, hl, hn⟩ := strrchr_some c xs i hr
      exact ⟨x :: a, b, by simp [hs], by simp [hl, h], hn⟩
    | none =>
      simp only [strrchr, hr] at h
      by_cases hx : x = c
      · simp only [if_pos hx, Option.some.injEq] at h
        exact ⟨[], xs, by simp [hx], by simp [h], not_mem_of_strrchr_none c xs hr⟩
      · simp [hx] at h

theorem startsWith_iff : ∀ s n : List Char, startsWith s n = true ↔ ∃ b, s = n ++ b
  | [], [] => by simp [startsWith]
  | _ :: _, [] => by simp [startsWith]
  | [], _ :: _ => by simp [startsWith]
  | x :: xs, y :: ys => by simp [startsWith, startsWith_iff xs ys]

theorem strstr_of_startsWith (s n : List Char) (h : startsWith s n = true) :
    strstr s n = some 0 := by
  cases s <;> simp [strstr, h]

/-- The search `strstr` returns `NULL` when the needle does not occur. -/
theorem strstr_of_no_occurrence (n : List Char) :
    ∀ h : List Char, (∀ a b, h ≠ a ++ n ++ b) → strstr h n = none
  | [], hno => by
    have hs : startsWith [] n ≠ true := fun c => by
      obtain ⟨b, hb⟩ := (startsWith_iff [] n).1 c
      exact hno [] b (by simpa using hb)
    simp [strstr, hs]
  | x :: xs, hno => by
    have hs : startsWith (x :: xs) n ≠ true := fun c => by
      obtain ⟨b, hb⟩ := (startsWith_iff (x :: xs) n).1 c
      exact hno [] b (by simpa using hb)
    have ih := strstr_of_no_occurrence n xs (fun a b e => hno (x :: a) b (by simp [e]))
    simp [strstr, hs, ih]

/-- The search `strstr` returns the first occurrence of the needle. -/
theorem strstr_first (n post : List Char) : ∀ pre : List Char,
    (∀ a b, pre ++ n ++ post = a ++ n ++ b → pre.length ≤ a.length) →
    strstr (pre ++ n ++ post) n = some pre.length
  | [], _ => by
    apply strstr_of_startsWith
    exact (startsWith_iff _ _).2 ⟨post, by simp⟩
  | x :: pre, hfirst => by
    have hs : startsWith (x :: (pre ++ n ++ post)) n ≠ true := fun c => by
      obtain ⟨b, hb⟩ := (startsWith_iff _ n).1 c
      have := hfirst [] b (by simpa using hb)
      simp at this
    have ih := strstr_first n post pre (fun a b e => by
      have := hfirst (x :: a) b (by simp [← e])
      simpa using this)
    have hc : x :: pre ++ n ++ post = x :: (pre ++ n ++ post) := by simp
    rw [hc, strstr, if_neg hs, ih]
    rfl

/-- What a successful `strstr` returns: the start of an occurrence that no other occurrence
precedes. -/
theorem strstr_some (n : List Char) : ∀ (h : List Char) (i : Nat), strstr h n = some i →
    ∃ a b, h = a ++ n ++ b ∧ a.length = i ∧ ∀ a1 b1, h = a1 ++ n ++ b1 → i ≤ a1.length
  | [], i, hi => by
    by_cases hs : startsWith [] n = true
    · simp only [strstr, if_pos hs, Option.some.injEq] at hi
      obtain ⟨b, hb⟩ := (startsWith_iff [] n).1 hs
      exact ⟨[], b, by simpa using hb, by simp [← hi], fun _ _ _ => by omega⟩
    · simp [strstr, hs] at hi
  | x :: xs, i, hi => by
    by_cases hs : startsWith (x :: xs) n = true
    · simp only [strstr, if_pos hs, Option.some.injEq] at hi
      obtain ⟨b, hb⟩ := (startsWith_iff _ n).1 hs
      exact ⟨[], b, by simpa using hb, by simp [← hi], fun _ _ _ => by omega⟩
    · simp only [strstr, if_neg hs, Option.map_eq_some'] at hi
      obtain ⟨k, hk, hki⟩ := hi
      obtain ⟨a, b, hab, hl, hmin⟩ := strstr_some n xs k hk
      refine ⟨x :: a, b, by simp [hab], by simp [hl, hki], ?_⟩
      intro a1 b1 e
      cases a1 with
      | nil =>
        exact absurd ((startsWith_iff _ n).2 ⟨b1, by simpa using e⟩) hs
      | cons y ys =>
        have e1 : xs = ys ++ n ++ b1 := by
          have := List.tail_eq_of_cons_eq (by simpa using e : x :: xs = y :: (ys ++ n ++ b1))
          exact this
        have := hmin ys b1 e1
        simp only [List.length_cons]
        omega

/-- A character that occurs in a string has a last occurrence. -/
theorem last_occurrence (c : Char) (v : List Char) (h : c ∈ v) :
    ∃ a b, v = a ++ c :: b ∧ c ∉ b := by
  cases hr : strrchr v c with
  | none => exact absurd h (not_mem_of_strrchr_none c v hr)
  | some j =>
    obtain ⟨a, b, hv, _, hb⟩ := strrchr_some c v j hr
    exact ⟨a, b, hv, hb⟩

/-! ## The comma-delimited descriptor (tmux) -/

/-- C5: descriptor parsing in `detect_tmux`. A `TMUX` value with at least two commas is
`p ++ "," ++ a ++ "," ++ b` with no comma in `a` and `b`, so that `p` is the substring
before the second-to-last comma; for every such value whose `p` fits `buffer`, detection
returns 1, sets `mplex` and stores exactly `p`. For every value with fewer than two
commas, detection returns 0 and leaves the statics, `mplex` included, as they were. -/
theorem detect_tmux_descriptor (L : Limits) (g : Globals) (w : World) :
    (∀ p a b : List Char, w.TMUX = some (p ++ ',' :: a ++ ',' :: b) →
      ',' ∉ a → ',' ∉ b → p.length < BUFFER_SIZE L →
      detect_tmux L g w = some (1, { g with buffer := p, mplex := 1 })) ∧
    (∀ v : List Char, 2 ≤ v.count ',' →
      ∃ p a b : List Char, v = p ++ ',' :: a ++ ',' :: b ∧ ',' ∉ a ∧ ',' ∉ b) ∧
    (∀ v : List Char, w.TMUX = some v → v.count ',' < 2 →
      detect_tmux L g w = some (0, g)) := by
  refine ⟨?_, ?_, ?_⟩
  · intro p a b hv ha hb hfit
    have hfit1 : p.length + 1 ≤ BUFFER_SIZE L := hfit
    simp only [detect_tmux, hv, strrchr_append_cons ',' b hb (p ++ ',' :: a), List.take_left,
      strrchr_append_cons ',' a ha p, strcpy_buffer, if_pos hfit1, Option.map]
  · intro v hc
    have hmem : ',' ∈ v := List.count_pos_iff.1 (by omega)
    obtain ⟨q, b, hv, hb⟩ := last_occurrence ',' v hmem
    have hq : 0 < q.count ',' := by
      have h0 : b.count ',' = 0 := List.count_eq_zero.2 hb
      rw [hv, List.count_append, List.count_cons_self, h0] at hc
      omega
    obtain ⟨p, a, hqa, ha⟩ := last_occurrence ',' q (List.count_pos_iff.1 hq)
    exact ⟨p, a, b, by rw [hv, hqa], ha, hb⟩
  · intro v hv hc
    by_cases hmem : ',' ∈ v
    · obtain ⟨q, b, hvq, hb⟩ := last_occurrence ',' v hmem
      have hq : ',' ∉ q := by
        have h0 : b.count ',' = 0 := List.count_eq_zero.2 hb
        rw [hvq, List.count_append, List.count_cons_self, h0] at hc
        exact List.count_eq_zero.1 (by omega)
      simp only [detect_tmux, hv, hvq, strrchr_append_cons ',' b hb q, List.take_left,
        strrchr_of_not_mem ',' q hq]
    · simp only [detect_tmux, hv, strrchr_of_not_mem ',' v hmem]

/-- Instance of C5: `TMUX=/tmp/tmux-1000/default,1234,0` stores `/tmp/tmux-1000/default`,
and `TMUX=/tmp/tmux-1000/default,1234` (one comma) is not found. -/
theorem detect_tmux_descriptor_witness :
    detect_tmux sampleLimits Globals.initial
        { STY := none, TMUX := some "/tmp/tmux-1000/default,1234,0".toList,
          screen_ls := none, stat := statAttached } =
      some (1, { Globals.initial with buffer := "/tmp/tmux-1000/default".toList, mplex := 1 }) ∧
    detect_tmux sampleLimits Globals.initial
        { STY := none, TMUX := some "/tmp/tmux-1000/default,1234".toList,
          screen_ls := none, stat := statAttached } =
      some (0, Globals.initial) :=
  ⟨(detect_tmux_descriptor sampleLimits Globals.initial
      { STY := none, TMUX := some "/tmp/tmux-1000/default,1234,0".toList,
        screen_ls := none, stat := statAttached }).1
      "/tmp/tmux-1000/default".toList "1234".toList "0".toList rfl
      (by decide) (by decide) (by decide),
    (detect_tmux_descriptor sampleLimits Globals.initial
      { STY := none, TMUX := some "/tmp/tmux-1000/default,1234".toList,
        screen_ls := none, stat := statAttached }).2.2
      "/tmp/tmux-1000/default,1234".toList rfl (by decide)⟩

/-! ## The session listing (GNU screen) -/

theorem NEWLINE_ne_PATH_SEP_C : PATH_SEP_C ≠ NEWLINE := by decide

theorem dot_ne_NEWLINE : '.' ≠ NEWLINE := by decide

theorem dot_ne_PATH_SEP_C : '.' ≠ PATH_SEP_C := by decide

/-- The first two searches of `extract_socket_path` on a text whose first marker is followed
by a path separator: the parser continues on the text from that separator on. -/
theorem extract_socket_path_from_sep (pre mid tail : List Char)
    (hfirst : ∀ a b, pre ++ search_str ++ (mid ++ PATH_SEP_C :: tail) = a ++ search_str ++ b →
      pre.length ≤ a.length)
    (hmid : PATH_SEP_C ∉ mid) :
    extract_socket_path (pre ++ search_str ++ (mid ++ PATH_SEP_C :: tail)) =
      match strchr (PATH_SEP_C :: tail) NEWLINE with
      | none => none
      | some e =>
        match strrchr ((PATH_SEP_C :: tail).take e) '.' with
        | none => none
        | some d => some (((PATH_SEP_C :: tail).take e).take d) := by
  have h1 := strstr_first search_str (mid ++ PATH_SEP_C :: tail) pre hfirst
  have h2 : (pre ++ search_str ++ (mid ++ PATH_SEP_C :: tail)).drop
      (pre.length + search_str.length) = mid ++ PATH_SEP_C :: tail := by
    rw [← List.length_append]
    exact List.drop_left _ _
  have h3 := strchr_append_cons PATH_SEP_C tail mid hmid
  have h4 : (mid ++ PATH_SEP_C :: tail).drop mid.length = PATH_SEP_C :: tail :=
    List.drop_left _ _
  simp only [extract_socket_path, h1, h2, h3, h4]

/-- All four searches of `extract_socket_path` on a text whose first marker is followed by
a path separator and then a newline: the result is decided by the last `.` of the record
between them. -/
theorem extract_socket_path_record (pre mid body rest : List Char)
    (hfirst : ∀ a b,
      pre ++ search_str ++ (mid ++ PATH_SEP_C :: (body ++ NEWLINE :: rest)) =
        a ++ search_str ++ b → pre.length ≤ a.length)
    (hmid : PATH_SEP_C ∉ mid) (hbody : NEWLINE ∉ body) :
    extract_socket_path
        (pre ++ search_str ++ (mid ++ PATH_SEP_C :: (body ++ NEWLINE :: rest))) =
      match strrchr (PATH_SEP_C :: body) '.' with
      | none => none
      | some d => some ((PATH_SEP_C :: body).take d) := by
  have hnl : NEWLINE ∉ PATH_SEP_C :: body := by
    intro m
    rcases List.mem_cons.1 m with e | m
    · exact NEWLINE_ne_PATH_SEP_C e.symm
    · exact hbody m
  have h5 : strchr (PATH_SEP_C :: (body ++ NEWLINE :: rest)) NEWLINE =
      some (PATH_SEP_C :: body).length :=
    strchr_append_cons NEWLINE rest (PATH_SEP_C :: body) hnl
  have h6 : (PATH_SEP_C :: (body ++ NEWLINE :: rest)).take (PATH_SEP_C :: body).length =
      PATH_SEP_C :: body := List.take_left (PATH_SEP_C :: body) (NEWLINE :: rest)
  rw [extract_socket_path_from_sep pre mid _ hfirst hmid]
  simp only [h5, h6]

/-- The first search of `extract_socket_path` succeeds and the second fails. -/
theorem extract_socket_path_no_sep (pre post : List Char)
    (hfirst : ∀ a b, pre ++ search_str ++ post = a ++ search_str ++ b → pre.length ≤ a.length)
    (hpost : PATH_SEP_C ∉ post) :
    extract_socket_path (pre ++ search_str ++ post) = none := by
  have h1 := strstr_first search_str post pre hfirst
  have h2 : (pre ++ search_str ++ post).drop (pre.length + search_str.length) = post := by
    rw [← List.length_append]
    exact List.drop_left _ _
  simp only [extract_socket_path, h1, h2, strchr_of_not_mem PATH_SEP_C post hpost]

/-- A successful `strstr` is a first occurrence. -/
theorem firstMarkerAt_of_strstr (text pre : List Char)
    (h : strstr text search_str = some pre.length) : FirstMarkerAt text pre := by
  intro a b e
  obtain ⟨_, _, _, _, hmin⟩ := strstr_some search_str text pre.length h
  exact hmin a b e

/-- C6: listing parsing in `extract_socket_path`. For every text of the form
`pre ++ " Socket" ++ mid ++ P ++ "." ++ suffix ++ "\n" ++ rest` in which the marker shown is
the first occurrence of the marker, `mid` contains no `/`, `P` begins with `/` and contains
no newline, and `suffix` contains neither `.` nor a newline, the parser returns exactly
`P`. -/
theorem extract_socket_path_listing (pre mid P suffix rest : List Char)
    (hfirst : FirstMarkerAt
      (pre ++ search_str ++ mid ++ P ++ '.' :: suffix ++ NEWLINE :: rest) pre)
    (hmid : PATH_SEP_C ∉ mid)
    (hP : P.head? = some PATH_SEP_C) (hPn : NEWLINE ∉ P)
    (hsd : '.' ∉ suffix) (hsn : NEWLINE ∉ suffix) :
    extract_socket_path (pre ++ search_str ++ mid ++ P ++ '.' :: suffix ++ NEWLINE :: rest) =
      some P := by
  cases P with
  | nil => simp at hP
  | cons x P1 =>
    have hx : x = PATH_SEP_C := by simpa using hP
    subst hx
    have hshape : pre ++ search_str ++ mid ++ PATH_SEP_C :: P1 ++ '.' :: suffix ++
        NEWLINE :: rest =
        pre ++ search_str ++ (mid ++ PATH_SEP_C :: ((P1 ++ '.' :: suffix) ++ NEWLINE :: rest)) := by
      simp [List.append_assoc]
    rw [hshape] at hfirst ⊢
    have hbody : NEWLINE ∉ P1 ++ '.' :: suffix := by
      intro m
      rcases List.mem_append.1 m with m | m
      · exact hPn (List.mem_cons_of_mem _ m)
      · rcases List.mem_cons.1 m with e | m
        · exact dot_ne_NEWLINE e.symm
        · exact hsn m
    rw [extract_socket_path_record pre mid (P1 ++ '.' :: suffix) rest hfirst hmid hbody]
    have hd : strrchr (PATH_SEP_C :: (P1 ++ '.' :: suffix)) '.' =
        some (PATH_SEP_C :: P1).length :=
      strrchr_append_cons '.' suffix hsd (PATH_SEP_C :: P1)
    have ht : (PATH_SEP_C :: (P1 ++ '.' :: suffix)).take (PATH_SEP_C :: P1).length =
        PATH_SEP_C :: P1 := List.take_left (PATH_SEP_C :: P1) ('.' :: suffix)
    simp only [hd, ht]

/-- Instance of C6: the last line of `screen -ls`, `1 Socket in /var/run/screen/S-user.`,
yields `/var/run/screen/S-user`. -/
theorem extract_socket_path_listing_witness :
    extract_socket_path ("1 Socket in /var/run/screen/S-user.".toList ++ [NEWLINE]) =
      some "/var/run/screen/S-user".toList :=
  extract_socket_path_listing "1".toList " in ".toList "/var/run/screen/S-user".toList [] []
    (firstMarkerAt_of_strstr _ "1".toList (by decide))
    (by decide) (by decide) (by decide) (by decide) (by decide)

/-- C7: `extract_socket_path` returns "not found" (`NULL`) for every text that misses one of
the four required tokens in order: (1) the marker " Socket" does not occur; (2) no `/`
follows the first occurrence of the marker; (3) no newline follows that `/`; (4) no `.`
stands between that `/` and the first newline after it. (5) It returns a path only when
all four searches succeed: the text then has the first marker, a `/` after it, a newline
after the `/` and a `.` in between. -/
theorem extract_socket_path_not_found (text : List Char) :
    ((∀ a b : List Char, text ≠ a ++ search_str ++ b) → extract_socket_path text = none) ∧
    (∀ pre post : List Char, text = pre ++ search_str ++ post → FirstMarkerAt text pre →
      PATH_SEP_C ∉ post → extract_socket_path text = none) ∧
    (∀ pre mid tail : List Char, text = pre ++ search_str ++ (mid ++ PATH_SEP_C :: tail) →
      FirstMarkerAt text pre → PATH_SEP_C ∉ mid → NEWLINE ∉ tail →
      extract_socket_path text = none) ∧
    (∀ pre mid body rest : List Char,
      text = pre ++ search_str ++ (mid ++ PATH_SEP_C :: (body ++ NEWLINE :: rest)) →
      FirstMarkerAt text pre → PATH_SEP_C ∉ mid → NEWLINE ∉ body → '.' ∉ body →
      extract_socket_path text = none) ∧
    (∀ path : List Char, extract_socket_path text = some path →
      ∃ pre mid body rest : List Char,
        text = pre ++ search_str ++ (mid ++ PATH_SEP_C :: (body ++ NEWLINE :: rest)) ∧
        FirstMarkerAt text pre ∧ PATH_SEP_C ∉ mid ∧ NEWLINE ∉ body ∧ '.' ∈ body) := by
  refine ⟨?_, ?_, ?_, ?_, ?_⟩
  · intro hno
    simp only [extract_socket_path, strstr_of_no_occurrence search_str text hno]
  · intro pre post ht hfirst hpost
    subst ht
    exact extract_socket_path_no_sep pre post hfirst hpost
  · intro pre mid tail ht hfirst hmid htail
    subst ht
    have hnl : NEWLINE ∉ PATH_SEP_C :: tail := by
      intro m
      rcases List.mem_cons.1 m with e | m
      · exact NEWLINE_ne_PATH_SEP_C e.symm
      · exact htail m
    rw [extract_socket_path_from_sep pre mid tail hfirst hmid]
    simp only [strchr_of_not_mem NEWLINE _ hnl]
  · intro pre mid body rest ht hfirst hmid hbody hdot
    subst ht
    have hd : '.' ∉ PATH_SEP_C :: body := by
      intro m
      rcases List.mem_cons.1 m with e | m
      · exact dot_ne_PATH_SEP_C e
      · exact hdot m
    rw [extract_socket_path_record pre mid body rest hfirst hmid hbody]
    simp only [strrchr_of_not_mem '.' _ hd]
  · intro path hp
    cases h1 : strstr text search_str with
    | none => simp [extract_socket_path, h1] at hp
    | some i =>
      obtain ⟨pre, post, ht, hl, hmin⟩ := strstr_some search_str text i h1
      subst hl
      have hfirst : FirstMarkerAt text pre := hmin
      cases h2 : strchr post PATH_SEP_C with
      | none =>
        have hn : PATH_SEP_C ∉ post := fun m => by
          obtain ⟨a, b, hab, ha⟩ := List.eq_append_cons_of_mem m
          rw [hab, strchr_append_cons PATH_SEP_C b a ha] at h2
          exact Option.noConfusion h2
        subst ht
        rw [extract_socket_path_no_sep pre post hfirst hn] at hp
        exact Option.noConfusion hp
      | some j =>
        obtain ⟨mid, tail, hpost, _, hmid⟩ := strchr_some PATH_SEP_C post j h2
        subst hpost
        subst ht
        rw [extract_socket_path_from_sep pre mid tail hfirst hmid] at hp
        cases h3 : strchr (PATH_SEP_C :: tail) NEWLINE with
        | none => simp [h3] at hp
        | some e =>
          obtain ⟨x, rest, hx, hxl, hxn⟩ := strchr_some NEWLINE _ e h3
          cases x with
          | nil =>
            have := List.head_eq_of_cons_eq (by simpa using hx :
              PATH_SEP_C :: tail = NEWLINE :: rest)
            exact absurd this NEWLINE_ne_PATH_SEP_C
          | cons y body =>
            have hy : PATH_SEP_C = y := List.head_eq_of_cons_eq
              (by simpa using hx : PATH_SEP_C :: tail = y :: (body ++ NEWLINE :: rest))
            have htl : tail = body ++ NEWLINE :: rest := List.tail_eq_of_cons_eq
              (by simpa using hx : PATH_SEP_C :: tail = y :: (body ++ NEWLINE :: rest))
            subst hy
            subst htl
            have hbody : NEWLINE ∉ body := fun m => hxn (List.mem_cons_of_mem _ m)
            refine ⟨pre, mid, body, rest, rfl, hfirst, hmid, hbody, ?_⟩
            by_contra hdot
            have hnone := (extract_socket_path_record pre mid body rest hfirst hmid hbody)
            have hd : '.' ∉ PATH_SEP_C :: body := by
              intro m
              rcases List.mem_cons.1 m with e1 | m
              · exact dot_ne_PATH_SEP_C e1
              · exact hdot m
            rw [strrchr_of_not_mem '.' _ hd] at hnone
            rw [extract_socket_path_from_sep pre mid _ hfirst hmid] at hnone
            rw [hnone] at hp
            exact Option.noConfusion hp

/-- Instance of C7: a listing line whose record has no `.` before the newline is not found;
the marker is at offset 1, the `/` follows " in ". -/
theorem extract_socket_path_not_found_witness :
    extract_socket_path ("1 Socket in /var/run/screen/S-user".toList ++ [NEWLINE]) = none :=
  (extract_socket_path_not_found
    ("1 Socket in /var/run/screen/S-user".toList ++ [NEWLINE])).2.2.2.1
    "1".toList " in ".toList "var/run/screen/S-user".toList [] rfl
    (firstMarkerAt_of_strstr _ "1".toList (by decide)) (by decide) (by decide) (by decide)

/-! ## The attachment sampler -/

/-- The test of line 224 reads bit 6 of the mode, the owner-execute bit. -/
theorem land_S_IXUSR (m : Nat) : m &&& S_IXUSR = 0 ↔ m.testBit 6 = false := by
  have h : S_IXUSR = 2 ^ 6 := by decide
  rw [h, Nat.and_two_pow]
  cases m.testBit 6 <;> simp

/-- C8: `mplex_is_detached` returns 0 (not detached) whenever no multiplexer was located,
whatever the file system answers, and returns 0 whenever `stat` of the stored socket path
fails; the function is total, it has no error result. -/
theorem mplex_is_detached_conservative (g : Globals) (stat : List Char → Option Nat) :
    (g.mplex = 0 → mplex_is_detached g stat = 0) ∧
    (stat g.buffer = none → mplex_is_detached g stat = 0) := by
  constructor
  · intro h
    simp [mplex_is_detached, h]
  · intro h
    simp [mplex_is_detached, h]

/-- Instance of C8: before any detection (`mplex = 0`) a detached-looking socket is not
reported, and after a tmux detection a file system without the socket is not reported. -/
theorem mplex_is_detached_conservative_witness :
    Globals.initial.mplex = 0 ∧ mplex_is_detached Globals.initial statDetached = 0 ∧
    (fun _ : List Char => (none : Option Nat)) sampleGlobals.buffer = none ∧
    mplex_is_detached sampleGlobals (fun _ => none) = 0 :=
  ⟨rfl, (mplex_is_detached_conservative Globals.initial statDetached).1 rfl, rfl,
    (mplex_is_detached_conservative sampleGlobals (fun _ => none)).2 rfl⟩

/-- C9: when a multiplexer was located and `stat` of the stored socket path succeeds with
mode `m`, `mplex_is_detached` returns 1 exactly when the owner-execute bit `S_IXUSR` (bit 6)
of `m` is clear and 0 exactly when it is set; two modes that agree on that bit give the
same result, so no other bit matters. -/
theorem mplex_is_detached_mode (g : Globals) (stat : List Char → Option Nat) (m : Nat)
    (hm : g.mplex ≠ 0) (hs : stat g.buffer = some m) :
    (mplex_is_detached g stat = 1 ↔ m &&& S_IXUSR = 0) ∧
    (mplex_is_detached g stat = 0 ↔ m &&& S_IXUSR ≠ 0) ∧
    (m &&& S_IXUSR = 0 ↔ m.testBit 6 = false) ∧
    (∀ (stat1 : List Char → Option Nat) (m1 : Nat), stat1 g.buffer = some m1 →
      m1.testBit 6 = m.testBit 6 → mplex_is_detached g stat1 = mplex_is_detached g stat) := by
  have hval : ∀ (st : List Char → Option Nat) (k : Nat), st g.buffer = some k →
      mplex_is_detached g st = if k &&& S_IXUSR = 0 then 1 else 0 := by
    intro st k hk
    simp only [mplex_is_detached, if_neg hm, hk]
  refine ⟨?_, ?_, land_S_IXUSR m, ?_⟩
  · rw [hval stat m hs]
    by_cases h : m &&& S_IXUSR = 0 <;> simp [h]
  · rw [hval stat m hs]
    by_cases h : m &&& S_IXUSR = 0 <;> simp [h]
  · intro stat1 m1 hs1 hbit
    rw [hval stat m hs, hval stat1 m1 hs1]
    have h1 := land_S_IXUSR m1
    have h2 := land_S_IXUSR m
    rw [hbit] at h1
    by_cases h : m &&& S_IXUSR = 0
    · rw [if_pos h, if_pos (h1.2 (h2.1 h))]
    · rw [if_neg h, if_neg (fun c => h (h2.2 (h1.1 c)))]

/-- Instance of C9: mode `0600` (owner-execute clear) is detached, and mode `0700`
(owner-execute set) is attached. -/
theorem mplex_is_detached_mode_witness :
    sampleGlobals.mplex ≠ 0 ∧ statDetached sampleGlobals.buffer = some 0o600 ∧
    0o600 &&& S_IXUSR = 0 ∧ mplex_is_detached sampleGlobals statDetached = 1 ∧
    0o700 &&& S_IXUSR ≠ 0 ∧ mplex_is_detached sampleGlobals statAttached = 0 :=
  ⟨by decide, rfl, by decide,
    (mplex_is_detached_mode sampleGlobals statDetached 0o600 (by decide) rfl).1.2 (by decide),
    by decide,
    (mplex_is_detached_mode sampleGlobals statAttached 0o700 (by decide) rfl).2.1.2
      (by decide)⟩

/-! ## The multiplexer locator -/

/-- The loop of `read_into_dyn_buffer` once the heap block exists: it appends every further
chunk, as long as the size stays in the range of `int`. -/
theorem read_loop_some : ∀ (stream : List (List Char)) (b d : List Char) (size : Nat),
    d.length + 1 = size → size + stream.flatten.length ≤ INT_MAX →
    read_loop stream b (some d) size = some (stream.getLastD b, some (d ++ stream.flatten))
  | [], b, d, size, _, _ => by simp [read_loop]
  | input :: rest, b, d, size, hd, hlen => by
    have hfl : (input :: rest).flatten.length = input.length + rest.flatten.length := by
      simp [List.flatten_cons]
    rw [hfl] at hlen
    have h1 : ¬ (size + input.length > INT_MAX) := by omega
    have h2 : d.take (size - 1) = d := List.take_of_length_le (by omega)
    have ih := read_loop_some rest input (d ++ input) (size + input.length)
      (by simp [List.length_append]; omega) (by omega)
    simp only [read_loop, if_neg h1, h2, ih, List.getLastD_cons, List.flatten_cons,
      List.append_assoc]

/-- A non-empty stream whose total length and terminating NUL fit an `int` is captured
whole. -/
theorem read_into_dyn_buffer_some (stream : List (List Char)) (buffer : List Char)
    (hne : stream ≠ []) (hlen : stream.flatten.length + 1 ≤ INT_MAX) :
    read_into_dyn_buffer stream buffer =
      some (stream.getLastD buffer, some stream.flatten) := by
  cases stream with
  | nil => exact absurd rfl hne
  | cons input rest =>
    have hfl : (input :: rest).flatten.length = input.length + rest.flatten.length := by
      simp [List.flatten_cons]
    rw [hfl] at hlen
    have h1 : ¬ (1 + input.length > INT_MAX) := by omega
    have ih := read_loop_some rest input input (1 + input.length) (by omega) (by omega)
    simp only [read_into_dyn_buffer, read_loop, if_neg h1, List.take_zero, List.nil_append,
      Nat.sub_self, ih, List.getLastD_cons, List.flatten_cons]

/-- The loop of `read_into_dyn_buffer` has no defined result once the accumulated size
leaves the range of `int`. -/
theorem read_loop_overflow : ∀ (stream : List (List Char)) (b : List Char)
    (d : Option (List Char)) (size : Nat),
    size ≤ INT_MAX → INT_MAX < size + stream.flatten.length →
    read_loop stream b d size = none
  | [], _, _, size, h1, h2 => by simp at h2; omega
  | input :: rest, b, d, size, h1, h2 => by
    have hfl : (input :: rest).flatten.length = input.length + rest.flatten.length := by
      simp [List.flatten_cons]
    rw [hfl] at h2
    by_cases h : size + input.length > INT_MAX
    · simp only [read_loop, if_pos h]
    · have ih := read_loop_overflow rest input
        (some ((match d with | some d => d | none => []).take (size - 1) ++ input))
        (size + input.length) (by omega) (by omega)
      simp only [read_loop, if_neg h]
      exact ih

theorem flatten_replicate_length (c : List Char) : ∀ n : Nat,
    (List.replicate n c).flatten.length = n * c.length
  | 0 => by simp
  | n + 1 => by
    rw [List.replicate_succ, List.flatten_cons, List.length_append,
      flatten_replicate_length c n, Nat.succ_mul]
    omega

/-! ## Family A: GNU screen -/

/-- C11: family A path composition. When `STY` is set to `S`, the listing subprocess yields
the non-empty output `out` (the capture is not `NULL`), `extract_socket_path` finds the
directory `D` in `out`, and `D`, "/" and `S` together fit `buffer`, then
`detect_gnu_screen` returns 1, sets `mplex` and stores exactly `D ++ "/" ++ S`. -/
theorem detect_gnu_screen_composes (L : Limits) (g : Globals) (w : World)
    (S : List Char) (stream : List (List Char)) (b out D : List Char)
    (hS : w.STY = some S) (hls : w.screen_ls = some stream)
    (hout : read_into_dyn_buffer stream g.buffer = some (b, some out))
    (hD : extract_socket_path out = some D)
    (hfit : D.length + PATH_SEP_S.length + S.length + 1 ≤ BUFFER_SIZE L) :
    detect_gnu_screen L g w =
      some (1, { g with buffer := D ++ PATH_SEP_S ++ S, mplex := 1 }) := by
  have h1 : D.length + 1 ≤ BUFFER_SIZE L := by omega
  have h2 : D.length + PATH_SEP_S.length + 1 ≤ BUFFER_SIZE L := by omega
  have h3 : (D ++ PATH_SEP_S).length + S.length + 1 ≤ BUFFER_SIZE L := by
    rw [List.length_append]; exact hfit
  simp only [detect_gnu_screen, hS, hls, hout, hD, strcpy_buffer, strcat_buffer, if_pos h1,
    if_pos h2, if_pos h3, Option.bind, Option.map]

/-- Instance of C11: `STY=1234.pts-0.host` and the three lines of `screen -ls`, ending in
`1 Socket in /var/run/screen/S-user.`, store `/var/run/screen/S-user/1234.pts-0.host`. -/
theorem detect_gnu_screen_composes_witness :
    extract_socket_path
        ("There is a screen on:".toList ++ [NEWLINE] ++
          ("  1234.pts-0.host (Attached)".toList ++ [NEWLINE]) ++
          ("1 Socket in /var/run/screen/S-user.".toList ++ [NEWLINE])) =
      some "/var/run/screen/S-user".toList ∧
    detect_gnu_screen sampleLimits Globals.initial sampleWorld =
      some (1, { Globals.initial with
        buffer := "/var/run/screen/S-user".toList ++ PATH_SEP_S ++ "1234.pts-0.host".toList,
        mplex := 1 }) :=
  ⟨by decide,
    detect_gnu_screen_composes sampleLimits Globals.initial sampleWorld
      "1234.pts-0.host".toList
      [ "There is a screen on:".toList ++ [NEWLINE],
        "  1234.pts-0.host (Attached)".toList ++ [NEWLINE],
        "1 Socket in /var/run/screen/S-user.".toList ++ [NEWLINE] ]
      ("1 Socket in /var/run/screen/S-user.".toList ++ [NEWLINE])
      ("There is a screen on:".toList ++ [NEWLINE] ++
          ("  1234.pts-0.host (Attached)".toList ++ [NEWLINE]) ++
          ("1 Socket in /var/run/screen/S-user.".toList ++ [NEWLINE]))
      "/var/run/screen/S-user".toList rfl rfl (by decide) (by decide) (by decide)⟩

/-- C12: family A failure handling. If `STY` is unset, or the listing subprocess cannot be
launched, or its output is empty, or `extract_socket_path` finds no path in the captured
output, `detect_gnu_screen` returns 0 and leaves `mplex` as it was (unset at start); in the
first three cases it leaves all statics as they were. -/
theorem detect_gnu_screen_failures (L : Limits) (g : Globals) (w : World) :
    (w.STY = none → detect_gnu_screen L g w = some (0, g)) ∧
    (w.screen_ls = none → detect_gnu_screen L g w = some (0, g)) ∧
    (w.screen_ls = some [] → detect_gnu_screen L g w = some (0, g)) ∧
    (∀ (stream : List (List Char)) (b out : List Char), w.screen_ls = some stream →
      read_into_dyn_buffer stream g.buffer = some (b, some out) →
      extract_socket_path out = none →
      ∃ g1 : Globals, detect_gnu_screen L g w = some (0, g1) ∧ g1.mplex = g.mplex) := by
  refine ⟨?_, ?_, ?_, ?_⟩
  · intro h
    simp only [detect_gnu_screen, h]
  · intro h
    cases hS : w.STY <;> simp only [detect_gnu_screen, hS, h]
  · intro h
    cases hS : w.STY <;> simp only [detect_gnu_screen, hS, h, read_into_dyn_buffer, read_loop]
  · intro stream b out hls hout hD
    cases hS : w.STY with
    | none => exact ⟨g, by simp only [detect_gnu_screen, hS], rfl⟩
    | some S =>
      exact ⟨{ g with buffer := b }, by simp only [detect_gnu_screen, hS, hls, hout, hD], rfl⟩

/-- Instance of C12: outside any multiplexer (`STY` unset) and inside a screen session
whose listing names no socket directory, family A reports unsupported and `mplex` stays
0. -/
theorem detect_gnu_screen_failures_witness :
    plainWorld.STY = none ∧
    detect_gnu_screen sampleLimits Globals.initial plainWorld = some (0, Globals.initial) ∧
    (∃ g1 : Globals,
      detect_gnu_screen sampleLimits Globals.initial
          { sampleWorld with screen_ls := some ["No Sockets found.".toList ++ [NEWLINE]] } =
        some (0, g1) ∧ g1.mplex = Globals.initial.mplex) :=
  ⟨rfl, (detect_gnu_screen_failures sampleLimits Globals.initial plainWorld).1 rfl,
    (detect_gnu_screen_failures sampleLimits Globals.initial
        { sampleWorld with screen_ls := some ["No Sockets found.".toList ++ [NEWLINE]] }).2.2.2
      ["No Sockets found.".toList ++ [NEWLINE]]
      ("No Sockets found.".toList ++ [NEWLINE]) ("No Sockets found.".toList ++ [NEWLINE])
      rfl (by decide) (by decide)⟩

/-- C15, refuted as stated: a stream of 524417 chunks of 4095 characters each (every chunk
is what one `fgets` call with `BUFFER_SIZE = 4096` can return) is not returned as the
concatenation of its chunks: the `int` that counts the size cannot hold 2147487616, and
the capture has no defined result. -/
theorem read_into_dyn_buffer_huge :
    hugeStream ≠ [] ∧
    (∀ chunk ∈ hugeStream, chunk.length ≤ BUFFER_SIZE sampleLimits - 1) ∧
    hugeStream.flatten.length = 2147487615 ∧
    read_into_dyn_buffer hugeStream [] = none ∧
    read_into_dyn_buffer hugeStream [] ≠ some (hugeStream.getLastD [], some hugeStream.flatten) := by
  have hlen : hugeStream.flatten.length = 2147487615 := by
    unfold hugeStream
    rw [flatten_replicate_length, List.length_replicate]
  have hnone : read_into_dyn_buffer hugeStream [] = none := by
    unfold read_into_dyn_buffer
    apply read_loop_overflow
    · decide
    · rw [hlen]; decide
  refine ⟨?_, ?_, hlen, hnone, ?_⟩
  · intro h
    have := congrArg List.length h
    unfold hugeStream at this
    rw [List.length_replicate, List.length_nil] at this
    exact absurd this (by decide)
  · intro chunk hc
    unfold hugeStream at hc
    rw [List.eq_of_mem_replicate hc, List.length_replicate]
    decide
  · rw [hnone]
    exact fun h => Option.noConfusion h

/-- C15 as amended: `read_into_dyn_buffer` captures the stream without truncation as long
as the size fits an `int`: for every non-empty sequence of chunks returned by successive
`fgets` calls whose total length plus the terminating NUL is at most `INT_MAX`, the
returned string equals the concatenation of all chunks in order (and `buffer` is left
holding the last chunk); for a stream that yields no chunk it returns `NULL`. -/
theorem read_into_dyn_buffer_captures (stream : List (List Char)) (buffer : List Char) :
    (stream ≠ [] → stream.flatten.length + 1 ≤ INT_MAX →
      read_into_dyn_buffer stream buffer =
        some (stream.getLastD buffer, some stream.flatten)) ∧
    (stream = [] → read_into_dyn_buffer stream buffer = some (buffer, none)) := by
  constructor
  · exact read_into_dyn_buffer_some stream buffer
  · intro h
    subst h
    rfl

/-- Instance of the amended C15: the three lines of `screen -ls`, read as three chunks. -/
theorem read_into_dyn_buffer_captures_witness :
    read_into_dyn_buffer
        [ "There is a screen on:".toList ++ [NEWLINE],
          "  1234.pts-0.host (Attached)".toList ++ [NEWLINE],
          "1 Socket in /var/run/screen/S-user.".toList ++ [NEWLINE] ] [] =
      some ("1 Socket in /var/run/screen/S-user.".toList ++ [NEWLINE],
        some ("There is a screen on:".toList ++ [NEWLINE] ++
          ("  1234.pts-0.host (Attached)".toList ++ [NEWLINE]) ++
          ("1 Socket in /var/run/screen/S-user.".toList ++ [NEWLINE]))) :=
  (read_into_dyn_buffer_captures
      [ "There is a screen on:".toList ++ [NEWLINE],
        "  1234.pts-0.host (Attached)".toList ++ [NEWLINE],
        "1 Socket in /var/run/screen/S-user.".toList ++ [NEWLINE] ] []).1
    (by decide) (by decide)

/-! ## Arming the timer -/

/-- C16: every transition of `mplex_timer_handler` is dispatched as the command "/status"
with exactly two arguments: the status word, which is "away" for Away, "busy" for Busy and
"online" for every other status value, and the note between one leading and one trailing
double quote. The status and the note are the saved ones (restore) or Away and the
configured away note. -/
theorem mplex_timer_handler_dispatch (L : Limits) (g : Globals) (tox : Tox)
    (stat : List Char → Option Nat) (us : UserSettings) (argv : List (List Char))
    (h : (mplex_timer_handler L g tox stat us).2 = some argv) :
    ∃ (new_status : TOX_USERSTATUS) (new_note word : List Char),
      argv = ["/status".toList, word, [DQUOTE] ++ new_note ++ [DQUOTE]] ∧
      (new_status = TOX_USERSTATUS.AWAY → word = "away".toList) ∧
      (new_status = TOX_USERSTATUS.BUSY → word = "busy".toList) ∧
      (new_status ≠ TOX_USERSTATUS.AWAY → new_status ≠ TOX_USERSTATUS.BUSY →
        word = "online".toList) ∧
      ((new_status = g.prev_status ∧ new_note = g.prev_note) ∨
        (new_status = TOX_USERSTATUS.AWAY ∧ new_note = us.mplex_away_note)) := by
  have hargv : ∀ (st : TOX_USERSTATUS) (note : List Char), argv = status_argv st note →
      argv = ["/status".toList, status_word st, [DQUOTE] ++ note ++ [DQUOTE]] ∧
      (st = TOX_USERSTATUS.AWAY → status_word st = "away".toList) ∧
      (st = TOX_USERSTATUS.BUSY → status_word st = "busy".toList) ∧
      (st ≠ TOX_USERSTATUS.AWAY → st ≠ TOX_USERSTATUS.BUSY →
        status_word st = "online".toList) := by
    intro st note e
    refine ⟨by simp [e, status_argv], ?_, ?_, ?_⟩
    · intro hs; simp [status_word, hs]
    · intro hs; simp [status_word, hs]
    · intro h1 h2; simp [status_word, h1, h2]
  by_cases hm : g.mplex = 0
  · rw [handler_no_mplex L g tox stat us hm] at h
    exact Option.noConfusion h
  · by_cases h1 : tox.status = TOX_USERSTATUS.AWAY ∧ mplex_is_detached g stat = 0
    · rw [handler_restore L g tox stat us hm h1] at h
      obtain ⟨e, ha, hb, ho⟩ := hargv g.prev_status g.prev_note (Option.some.inj h).symm
      exact ⟨g.prev_status, g.prev_note, _, e, ha, hb, ho, Or.inl ⟨rfl, rfl⟩⟩
    · by_cases h2 : tox.status ≠ TOX_USERSTATUS.AWAY ∧ mplex_is_detached g stat ≠ 0
      · rw [handler_snapshot L g tox stat us hm h2] at h
        obtain ⟨e, ha, hb, ho⟩ :=
          hargv TOX_USERSTATUS.AWAY us.mplex_away_note (Option.some.inj h).symm
        exact ⟨TOX_USERSTATUS.AWAY, us.mplex_away_note, _, e, ha, hb, ho, Or.inr ⟨rfl, rfl⟩⟩
      · rw [handler_idle L g tox stat us h1 h2] at h
        exact Option.noConfusion h

/-- Instance of C16: the away transition of a Busy user dispatches
`/status away "Detached"`. -/
theorem mplex_timer_handler_dispatch_witness :
    (mplex_timer_handler sampleLimits sampleGlobals
      { status := TOX_USERSTATUS.BUSY, statusmessage := ['N'] } statDetached sampleSettings).2 =
      some ["/status".toList, "away".toList, [DQUOTE] ++ "Detached".toList ++ [DQUOTE]] ∧
    ∃ (new_status : TOX_USERSTATUS) (new_note word : List Char),
      ["/status".toList, "away".toList, [DQUOTE] ++ "Detached".toList ++ [DQUOTE]] =
        ["/status".toList, word, [DQUOTE] ++ new_note ++ [DQUOTE]] ∧
      (new_status = TOX_USERSTATUS.AWAY → word = "away".toList) ∧
      (new_status = TOX_USERSTATUS.BUSY → word = "busy".toList) ∧
      (new_status ≠ TOX_USERSTATUS.AWAY → new_status ≠ TOX_USERSTATUS.BUSY →
        word = "online".toList) ∧
      ((new_status = sampleGlobals.prev_status ∧ new_note = sampleGlobals.prev_note) ∨
        (new_status = TOX_USERSTATUS.AWAY ∧ new_note = sampleSettings.mplex_away_note)) :=
  ⟨by decide,
    mplex_timer_handler_dispatch sampleLimits sampleGlobals
      { status := TOX_USERSTATUS.BUSY, statusmessage := ['N'] } statDetached sampleSettings
      ["/status".toList, "away".toList, [DQUOTE] ++ "Detached".toList ++ [DQUOTE]]
      (by decide)⟩

/-! ## The saved status -/

/-- C18: if a tick finds the live status Away with the sampler reporting attached while the
snapshot still holds its initial values (no automatic away transition has stored anything
yet, for example the user set Away by hand while attached), the tick dispatches the status
command with those initial values, the status word "online" and an empty note between two
double quotes; once the command has taken effect the live status is Online with an empty
note, so the Away set by hand is replaced. -/
theorem manual_away_replaced (cmd : Tox → List (List Char) → Tox) (hcmd : TakesEffect cmd)
    (L : Limits) (us : UserSettings) (g : Globals) (tox : Tox)
    (stat : List Char → Option Nat)
    (hps : g.prev_status = Globals.initial.prev_status)
    (hpn : g.prev_note = Globals.initial.prev_note)
    (hm : g.mplex ≠ 0) (hs : tox.status = TOX_USERSTATUS.AWAY)
    (hA : mplex_is_detached g stat = 0) :
    mplex_timer_handler L g tox stat us =
      (g, some ["/status".toList, "online".toList, [DQUOTE, DQUOTE]]) ∧
    (tick cmd L us (g, tox) stat).1 =
      (g, { status := TOX_USERSTATUS.NONE, statusmessage := [] }) := by
  have h := handler_restore L g tox stat us hm ⟨hs, hA⟩
  have hps1 : g.prev_status = TOX_USERSTATUS.NONE := hps
  have hpn1 : g.prev_note = [] := hpn
  constructor
  · rw [h, hps1, hpn1]
    rfl
  · simp only [tick, h, hcmd _ _ _, hps1, hpn1]

/-- Instance of C18: program start inside an attached tmux session, the user Away with the
note "N" set by hand: the first tick dispatches `/status online ""`. -/
theorem manual_away_replaced_witness :
    TakesEffect cmd_status ∧ sampleGlobals.mplex ≠ 0 ∧
    mplex_is_detached sampleGlobals statAttached = 0 ∧
    mplex_timer_handler sampleLimits sampleGlobals
        { status := TOX_USERSTATUS.AWAY, statusmessage := ['N'] } statAttached sampleSettings =
      (sampleGlobals, some ["/status".toList, "online".toList, [DQUOTE, DQUOTE]]) :=
  ⟨cmd_status_takesEffect, by decide, by decide,
    (manual_away_replaced cmd_status cmd_status_takesEffect sampleLimits sampleSettings
      sampleGlobals { status := TOX_USERSTATUS.AWAY, statusmessage := ['N'] } statAttached
      rfl rfl (by decide) rfl (by decide)).1⟩

/-! ## Shape of a returned path -/

/-- What a successful `extract_socket_path` has found: the record from the first `/` after
the marker up to the newline, and in it the last `.`, before which the path stops. -/
theorem extract_socket_path_some (text path : List Char)
    (hp : extract_socket_path text = some path) :
    ∃ pre mid body rest tail : List Char,
      text = pre ++ search_str ++ (mid ++ PATH_SEP_C :: (body ++ NEWLINE :: rest)) ∧
      NEWLINE ∉ body ∧ PATH_SEP_C :: body = path ++ '.' :: tail := by
  cases h1 : strstr text search_str with
  | none => simp [extract_socket_path, h1] at hp
  | some i =>
    obtain ⟨pre, post, ht, hl, hmin⟩ := strstr_some search_str text i h1
    subst hl
    subst ht
    cases h2 : strchr post PATH_SEP_C with
    | none =>
      have hn : PATH_SEP_C ∉ post := fun m => by
        obtain ⟨a, b, hab, ha⟩ := List.eq_append_cons_of_mem m
        rw [hab, strchr_append_cons PATH_SEP_C b a ha] at h2
        exact Option.noConfusion h2
      rw [extract_socket_path_no_sep pre post hmin hn] at hp
      exact Option.noConfusion hp
    | some j =>
      obtain ⟨mid, tail, hpost, _, hmid⟩ := strchr_some PATH_SEP_C post j h2
      subst hpost
      cases h3 : strchr (PATH_SEP_C :: tail) NEWLINE with
      | none =>
        rw [extract_socket_path_from_sep pre mid tail hmin hmid] at hp
        simp [h3] at hp
      | some e =>
        obtain ⟨x, rest, hx, _, hxn⟩ := strchr_some NEWLINE _ e h3
        cases x with
        | nil =>
          have := List.head_eq_of_cons_eq (by simpa using hx :
            PATH_SEP_C :: tail = NEWLINE :: rest)
          exact absurd this NEWLINE_ne_PATH_SEP_C
        | cons y body =>
          have hy : PATH_SEP_C = y := List.head_eq_of_cons_eq
            (by simpa using hx : PATH_SEP_C :: tail = y :: (body ++ NEWLINE :: rest))
          have htl : tail = body ++ NEWLINE :: rest := List.tail_eq_of_cons_eq
            (by simpa using hx : PATH_SEP_C :: tail = y :: (body ++ NEWLINE :: rest))
          subst hy
          subst htl
          have hbody : NEWLINE ∉ body := fun m => hxn (List.mem_cons_of_mem _ m)
          rw [extract_socket_path_record pre mid body rest hmin hmid hbody] at hp
          cases h4 : strrchr (PATH_SEP_C :: body) '.' with
          | none => simp [h4] at hp
          | some d =>
            obtain ⟨a, b, hab, hal, _⟩ := strrchr_some '.' _ d h4
            simp only [h4, Option.some.injEq] at hp
            have hpa : path = a := by
              rw [← hp, hab, ← hal]
              exact List.take_left a ('.' :: b)
            exact ⟨pre, mid, body, rest, b, rfl, hbody, by rw [hpa]; exact hab⟩

/-- C19: whenever `extract_socket_path` returns a path, the path is non-empty, begins with
the path separator `/`, contains no newline, and occurs in the input text immediately
followed by a `.`. -/
theorem extract_socket_path_shape (text path : List Char)
    (hp : extract_socket_path text = some path) :
    path ≠ [] ∧ path.head? = some PATH_SEP_C ∧ NEWLINE ∉ path ∧
    ∃ before after : List Char, text = before ++ path ++ '.' :: after := by
  obtain ⟨pre, mid, body, rest, tail, ht, hbody, hrec⟩ := extract_socket_path_some text path hp
  cases path with
  | nil =>
    have := List.head_eq_of_cons_eq (by simpa using hrec : PATH_SEP_C :: body = '.' :: tail)
    exact absurd this.symm dot_ne_PATH_SEP_C
  | cons x p1 =>
    have hx : PATH_SEP_C = x := List.head_eq_of_cons_eq
      (by simpa using hrec : PATH_SEP_C :: body = x :: (p1 ++ '.' :: tail))
    have hb : body = p1 ++ '.' :: tail := List.tail_eq_of_cons_eq
      (by simpa using hrec : PATH_SEP_C :: body = x :: (p1 ++ '.' :: tail))
    subst hx
    refine ⟨by simp, by simp, ?_, pre ++ search_str ++ mid, tail ++ NEWLINE :: rest, ?_⟩
    · intro m
      rcases List.mem_cons.1 m with e | m
      · exact NEWLINE_ne_PATH_SEP_C e.symm
      · exact hbody (by rw [hb]; exact List.mem_append_left _ m)
    · rw [ht, hb]
      simp [List.append_assoc]

/-- Instance of C19: the path returned for the last line of `screen -ls` is
`/var/run/screen/S-user`, which stands in the line right before the final `.`. -/
theorem extract_socket_path_shape_witness :
    extract_socket_path ("1 Socket in /var/run/screen/S-user.".toList ++ [NEWLINE]) =
      some "/var/run/screen/S-user".toList ∧
    "/var/run/screen/S-user".toList ≠ [] ∧
    "/var/run/screen/S-user".toList.head? = some PATH_SEP_C ∧
    NEWLINE ∉ "/var/run/screen/S-user".toList ∧
    ∃ before after : List Char,
      "1 Socket in /var/run/screen/S-user.".toList ++ [NEWLINE] =
        before ++ "/var/run/screen/S-user".toList ++ '.' :: after :=
  ⟨by decide,
    extract_socket_path_shape ("1 Socket in /var/run/screen/S-user.".toList ++ [NEWLINE])
      "/var/run/screen/S-user".toList (by decide)⟩

end TermMplex
